import Mathlib

/-!
Shallow embedding of the messaging subsystem of the marketplace
application (backend `messageController.js`, routes, and the two polling
client components), together with proofs of the stated properties.

Conventions of the embedding:
* MongoDB ObjectIds are modelled as natural numbers; a `Store` carries a
  `nextId` counter standing for id generation and a logical clock `time`
  standing for the document timestamps (`createdAt`, `updatedAt`).
* A request handler is a function from the store (plus the request data)
  to an `Except ErrorResponse result` paired with the post-state; the
  handlers that do not mutate return the store unchanged.
* `ErrorResponse(message, statusCode)` mirrors the constructor used by
  the controller.
* JavaScript falsiness of a missing/empty request field is modelled by
  `Option` for id-valued fields and by the empty string for text fields.
* The three participant-membership checks of the controller
  (`some(p => p._id.toString() === req.user.id)`, Mongoose
  `participants.includes(req.user.id)`, and
  `participants.map(p => p.toString()).includes(userId)`) all amount to
  membership of the acting user's id in the participant id list, and are
  modelled as `List.contains`.
* The `Message` schema file is not part of the sources; its fields are
  reconstructed from every read and write the controller performs on
  messages: `conversationId`, `senderId`, `content`, `readBy`,
  `createdAt`, and a legacy boolean `read` flag (written by
  `getMessagesByConversation`, defaulting to `false` at creation since
  neither creation site sets it).  Under the alternative reading in
  which the schema has no `read` path at all, the `updateMany` on it is
  a complete no-op; both readings leave `readBy` untouched, which is the
  only fact the theorems below use about the flag.
-/

deriving instance DecidableEq for Except

abbrev UserId := Nat
abbrev ConvId := Nat
abbrev MsgId := Nat
abbrev ItemId := Nat

/-- A message document: owning conversation, sender, content, the set of
participant ids who have read it (`readBy`, modelled as a list), the
legacy boolean `read` flag, and the creation timestamp. -/
structure Message where
  id : MsgId
  conversationId : ConvId
  senderId : UserId
  content : String
  readBy : List UserId
  read : Bool
  createdAt : Nat
deriving Repr, DecidableEq

/-- A conversation document: participants, optional associated item,
pointer to the most recent message, and the last-update timestamp.
A stored `itemId = none` stands for the field being `null`/absent; the
controller's lookup key `itemId: itemId || null` matches exactly the
conversations whose stored option equals the requested option. -/
structure Conversation where
  id : ConvId
  participants : List UserId
  itemId : Option ItemId
  lastMessage : Option MsgId
  updatedAt : Nat
deriving Repr, DecidableEq

/-- The document store: registered user ids, the two collections, the id
counter and the logical clock. -/
structure Store where
  users : List UserId
  conversations : List Conversation
  messages : List Message
  nextId : Nat
  time : Nat
deriving Repr, DecidableEq

/-- Mirror of the `ErrorResponse(message, statusCode)` class used by the
controller for every failure path. -/
structure ErrorResponse where
  message : String
  statusCode : Nat
deriving Repr, DecidableEq

/-- Status code of a handler result when it failed, `none` on success. -/
def errStatus {α : Type} : Except ErrorResponse α → Option Nat
  | .error e => some e.statusCode
  | .ok _ => none

/-- Authorization-failure test on a handler outcome, from the spec's
error taxonomy: the call failed and the status is 401 or 403 (the two
codes the controller uses for "authenticated but not a participant"). -/
def isAuthStatus (o : Option Nat) : Bool :=
  o == some 401 || o == some 403

/-- One conversation's last-message pointer is unset or references a
message of `msgs` whose `conversationId` is that conversation's id. -/
def convPointerOk (msgs : List Message) (c : Conversation) : Bool :=
  match c.lastMessage with
  | none => true
  | some mid => msgs.any (fun m => m.id == mid && m.conversationId == c.id)

/-- Referential-integrity check of the last-message pointers: every
stored conversation whose `lastMessage` is set references a stored
message whose `conversationId` is that conversation's id. -/
def convInvB (s : Store) : Bool :=
  s.conversations.all (convPointerOk s.messages)

/-- `Conversation.findById`. -/
def findConversation (s : Store) (cid : ConvId) : Option Conversation :=
  s.conversations.find? (fun c => c.id == cid)

/-- The message query issued both by `getConversations` (through
`Message.countDocuments`) and by `markMessagesAsRead` (as the filter of
its `updateMany`): messages of the conversation not sent by the given
user (`senderId: {$ne: userId}`) and whose `readBy` array does not
contain the given user (`readBy: {$nin: [userId]}`). -/
def unreadQuery (cid : ConvId) (userId : UserId) (m : Message) : Bool :=
  m.conversationId == cid && !(m.senderId == userId) && !(m.readBy.contains userId)

/-- The `Message.countDocuments` of `getConversations`: the number of
matches of `unreadQuery`. -/
def unreadCount (s : Store) (cid : ConvId) (userId : UserId) : Nat :=
  (s.messages.filter (unreadQuery cid userId)).length

/-- Sort key of `.sort({updatedAt: -1})`: descending by `updatedAt`. -/
def updatedDesc (a b : Conversation) : Prop := b.updatedAt ≤ a.updatedAt

instance : DecidableRel updatedDesc := fun a b => Nat.decLe b.updatedAt a.updatedAt

instance : IsTotal Conversation updatedDesc := ⟨fun a b => Nat.le_total b.updatedAt a.updatedAt⟩

instance : IsTrans Conversation updatedDesc := ⟨fun _ _ _ h h' => Nat.le_trans h' h⟩

/-- Sort key of `.sort({createdAt: 1})`: ascending by `createdAt`. -/
def createdAsc (a b : Message) : Prop := a.createdAt ≤ b.createdAt

instance : DecidableRel createdAsc := fun a b => Nat.decLe a.createdAt b.createdAt

instance : IsTotal Message createdAsc := ⟨fun a b => Nat.le_total a.createdAt b.createdAt⟩

instance : IsTrans Message createdAsc := ⟨fun _ _ _ h h' => Nat.le_trans h h'⟩

/-- `getConversations` (GET /conversations): all conversations with the
requesting user among the participants (`participants: {$in: [userId]}`),
sorted by `updatedAt` descending, each paired with its computed
`unreadCount` for the requester.  Population of participant/item/last
message summaries is a projection for display and is not modelled. -/
def getConversations (s : Store) (userId : UserId) : List (Conversation × Nat) :=
  let found := s.conversations.filter (fun c => c.participants.contains userId)
  (List.insertionSort updatedDesc found).map (fun c => (c, unreadCount s c.id userId))

/-- `getConversation` (GET /conversations/:id): 404 if absent, 401 if the
requester is not a participant, otherwise the conversation. -/
def getConversation (s : Store) (cid : ConvId) (userId : UserId) :
    Except ErrorResponse Conversation :=
  match findConversation s cid with
  | none => .error ⟨s!"Conversation not found with id of {cid}", 404⟩
  | some conversation =>
    if conversation.participants.contains userId then
      .ok conversation
    else
      .error ⟨s!"User {userId} is not authorized to access this conversation", 401⟩

/-- The `Conversation.findOne` key used by `createConversation`:
`participants: {$all: [userId, receiverId]}` (containment of both ids)
and `itemId: itemId || null` (the stored option equals the requested
option; `none` — i.e. `null` — also matches a document missing the
field). -/
def convKey (userId receiverId : UserId) (itemId : Option ItemId) (c : Conversation) : Bool :=
  c.participants.contains userId && c.participants.contains receiverId
    && c.itemId == itemId

/-- Result payload of `createConversation`: the (re)used conversation and
the created message. -/
structure CreateResult where
  conversation : Conversation
  message : Message
deriving Repr, DecidableEq

/-- `createConversation` (POST /conversations).  Validates presence of
`receiverId` and `initialMessage` (400), resolves the receiver (404),
finds an existing conversation for the unordered pair and item key or
creates one, creates the initial message with `readBy = [requester]`,
sets the conversation's `lastMessage` and saves it (refreshing
`updatedAt`).  The tangled save order of the source (message created
first, conversation saved once or twice) produces exactly this final
state because Mongoose pre-assigns the id at construction. -/
def createConversation (s : Store) (userId : UserId) (receiverId : Option UserId)
    (itemId : Option ItemId) (initialMessage : String) :
    Except ErrorResponse CreateResult × Store :=
  match receiverId with
  | none => (.error ⟨"Please provide a receiver and initial message", 400⟩, s)
  | some receiverId =>
    if initialMessage.isEmpty then
      (.error ⟨"Please provide a receiver and initial message", 400⟩, s)
    else if !(s.users.contains receiverId) then
      (.error ⟨s!"User not found with id of {receiverId}", 404⟩, s)
    else
      match s.conversations.find? (convKey userId receiverId itemId) with
      | some conversation =>
        let message : Message :=
          { id := s.nextId, conversationId := conversation.id, senderId := userId,
            content := initialMessage, readBy := [userId], read := false,
            createdAt := s.time }
        let updated := { conversation with lastMessage := some message.id, updatedAt := s.time }
        (.ok ⟨updated, message⟩,
          { s with
            conversations :=
              s.conversations.map (fun c => if c.id == conversation.id then updated else c),
            messages := s.messages ++ [message],
            nextId := s.nextId + 1,
            time := s.time + 1 })
      | none =>
        let convId := s.nextId
        let message : Message :=
          { id := s.nextId + 1, conversationId := convId, senderId := userId,
            content := initialMessage, readBy := [userId], read := false,
            createdAt := s.time }
        let created : Conversation :=
          { id := convId, participants := [userId, receiverId], itemId := itemId,
            lastMessage := some message.id, updatedAt := s.time }
        (.ok ⟨created, message⟩,
          { s with
            conversations := s.conversations ++ [created],
            messages := s.messages ++ [message],
            nextId := s.nextId + 2,
            time := s.time + 1 })

/-- `getMessagesByConversation` (GET /messages/conversation/:id): 404 if
the conversation is absent, 401 if the requester is not a participant;
returns the conversation's messages sorted by `createdAt` ascending.
Side effect taken verbatim from the source: `updateMany` sets the legacy
boolean `read` flag to `true` on messages of the conversation not sent by
the requester with `read: false` — it does NOT touch the `readBy` array. -/
def getMessagesByConversation (s : Store) (cid : ConvId) (userId : UserId) :
    Except ErrorResponse (List Message) × Store :=
  match findConversation s cid with
  | none => (.error ⟨s!"Conversation not found with id of {cid}", 404⟩, s)
  | some conversation =>
    if !(conversation.participants.contains userId) then
      (.error ⟨s!"User {userId} is not authorized to access messages in this conversation", 401⟩, s)
    else
      let messages :=
        List.insertionSort createdAsc (s.messages.filter (fun m => m.conversationId == cid))
      (.ok messages,
        { s with
          messages := s.messages.map (fun m =>
            if m.conversationId == cid && !(m.senderId == userId) && m.read == false then
              { m with read := true }
            else m) })

/-- Result payload of `markMessagesAsRead` (its `modifiedCount`). -/
structure MarkReadResult where
  modifiedCount : Nat
deriving Repr, DecidableEq

/-- MongoDB `$addToSet`: append the element unless already present. -/
def addToSet (l : List UserId) (u : UserId) : List UserId :=
  if l.contains u then l else l ++ [u]

/-- `markMessagesAsRead` (POST /conversations/:id/read): 404 if the
conversation is absent, 403 if the requester is not a participant;
otherwise `$addToSet`s the requester into `readBy` of every message of
the conversation not sent by them and not yet read by them, and reports
the number of documents modified. -/
def markMessagesAsRead (s : Store) (cid : ConvId) (userId : UserId) :
    Except ErrorResponse MarkReadResult × Store :=
  match findConversation s cid with
  | none => (.error ⟨s!"Conversation not found with id of {cid}", 404⟩, s)
  | some conversation =>
    if !(conversation.participants.contains userId) then
      (.error ⟨s!"User {userId} is not authorized to mark messages as read in this conversation", 403⟩, s)
    else
      (.ok ⟨(s.messages.filter (unreadQuery cid userId)).length⟩,
        { s with
          messages := s.messages.map (fun m =>
            if unreadQuery cid userId m then
              { m with readBy := addToSet m.readBy userId }
            else m) })

/-- Events driving one sync-client poller: a timer tick of its
`setInterval`, or the completion (success or failure — the `finally`
block runs either way) of one outstanding request. -/
inductive PollEvent where
  | timerFire
  | responseArrive
deriving Repr, DecidableEq

/-- Runtime state of one sync-client poller, embedded with JavaScript
closure semantics.  `stateIsFetching` is the current React state cell
behind `isFetching` / `isFetchingMessages`; `capturedIsFetching` is the
value of that state **captured by the render closure the installed
interval holds**: the effect installing the `setInterval` runs once (list
poller, deps `[]`) or only on a conversation switch (thread poller), so
every tick calls the closure created at that render, whose `isFetching`
binding is the immutable `const` of that render.  `setIsFetching(true)`
updates the state cell for later renders but can never change the
captured binding.  `inFlight` counts outstanding requests. -/
structure PollerState where
  stateIsFetching : Bool
  capturedIsFetching : Bool
  inFlight : Nat
deriving Repr, DecidableEq

/-- Poller state right after the effect installs the interval: the state
cell is `false` (its `useState(false)` initial value) and the installed
closure captured that `false`. -/
def pollerInit : PollerState :=
  { stateIsFetching := false, capturedIsFetching := false, inFlight := 0 }

/-- One step of the poller, from the source of `fetchConversations` /
`fetchMessagesAndUpdateState`.  A timer tick runs the captured closure:
its guard (`if (isFetching && isPolling) return` resp.
`if (!currentConvId || isFetchingMessages) return`) reads the *captured*
`isFetching` binding; when the guard does not trip it calls
`setIsFetching(true)` and starts a request.  A response runs the
`finally` block, `setIsFetching(false)`, and the request ceases to be
outstanding. -/
def pollStep (s : PollerState) (e : PollEvent) : PollerState :=
  match e with
  | .timerFire =>
    if s.capturedIsFetching then s
    else { s with stateIsFetching := true, inFlight := s.inFlight + 1 }
  | .responseArrive =>
    if s.inFlight == 0 then s
    else { s with stateIsFetching := false, inFlight := s.inFlight - 1 }

/-- Run the poller over a sequence of events from its initial state. -/
def pollRun (es : List PollEvent) : PollerState :=
  es.foldl pollStep pollerInit

/-- `sendMessage` (POST /messages): 400 when `conversationId` or
`content` is missing/empty, 404 when the conversation is absent, 401 when
the sender is not a participant; otherwise creates the message with
`readBy = [sender]`, points the conversation's `lastMessage` at it and
saves it (refreshing `updatedAt`). -/
def sendMessage (s : Store) (conversationId : Option ConvId) (userId : UserId)
    (content : String) : Except ErrorResponse Message × Store :=
  match conversationId with
  | none => (.error ⟨"Please provide conversation ID and message content", 400⟩, s)
  | some cid =>
    if content.isEmpty then
      (.error ⟨"Please provide conversation ID and message content", 400⟩, s)
    else
      match findConversation s cid with
      | none => (.error ⟨s!"Conversation not found with id of {cid}", 404⟩, s)
      | some conversation =>
        if !(conversation.participants.contains userId) then
          (.error ⟨s!"User {userId} is not authorized to send messages in this conversation", 401⟩, s)
        else
          let message : Message :=
            { id := s.nextId, conversationId := cid, senderId := userId,
              content := content, readBy := [userId], read := false,
              createdAt := s.time }
          let updated := { conversation with lastMessage := some message.id, updatedAt := s.time }
          (.ok message,
            { s with
              conversations :=
                s.conversations.map (fun c => if c.id == cid then updated else c),
              messages := s.messages ++ [message],
              nextId := s.nextId + 1,
              time := s.time + 1 })

/-- Concrete store used by the witnesses: users 1 and 2, one conversation
(id 0) between them about no item, holding one message (id 0) sent by
user 1 and read only by user 1. -/
def twoUserStore : Store :=
  { users := [1, 2],
    conversations :=
      [{ id := 0, participants := [1, 2], itemId := none,
         lastMessage := some 0, updatedAt := 0 }],
    messages :=
      [{ id := 0, conversationId := 0, senderId := 1, content := "hi",
         readBy := [1], read := false, createdAt := 0 }],
    nextId := 1,
    time := 1 }

/-- Concrete store with two registered users and no conversations. -/
def freshStore : Store :=
  { users := [1, 2], conversations := [], messages := [], nextId := 0, time := 0 }

theorem sendMessage_ok {s : Store} {cid : Option ConvId} {userId : UserId}
    {content : String} {m : Message} {s' : Store}
    (h : sendMessage s cid userId content = (.ok m, s')) :
    ∃ c0 c, cid = some c0 ∧ content.isEmpty = false ∧
      findConversation s c0 = some c ∧ c.participants.contains userId = true ∧
      m = { id := s.nextId, conversationId := c0, senderId := userId,
            content := content, readBy := [userId], read := false,
            createdAt := s.time } ∧
      s' = { s with
        conversations := s.conversations.map (fun x =>
          if x.id == c0 then { c with lastMessage := some m.id, updatedAt := s.time } else x),
        messages := s.messages ++ [m],
        nextId := s.nextId + 1,
        time := s.time + 1 } := by
  cases cid with
  | none => simp [sendMessage, Prod.ext_iff] at h
  | some c0 =>
    simp only [sendMessage] at h
    split at h
    · simp [Prod.ext_iff] at h
    · split at h
      · simp [Prod.ext_iff] at h
      · next conversation hfind =>
        split at h
        · simp [Prod.ext_iff] at h
        · next hpart =>
          injection h with h1 h2
          injection h1 with h1
          refine ⟨c0, conversation, rfl, by simp_all, hfind, by simp_all, h1.symm, ?_⟩
          rw [← h2, ← h1]

theorem markMessagesAsRead_ok {s : Store} {cid : ConvId} {userId : UserId}
    {r : MarkReadResult} {s' : Store}
    (h : markMessagesAsRead s cid userId = (.ok r, s')) :
    ∃ c, findConversation s cid = some c ∧ c.participants.contains userId = true ∧
      r = ⟨(s.messages.filter (unreadQuery cid userId)).length⟩ ∧
      s' = { s with messages := s.messages.map (fun m =>
        if unreadQuery cid userId m then
          { m with readBy := addToSet m.readBy userId }
        else m) } := by
  simp only [markMessagesAsRead] at h
  split at h
  · simp [Prod.ext_iff] at h
  · next conversation hfind =>
    split at h
    · simp [Prod.ext_iff] at h
    · next hpart =>
      injection h with h1 h2
      injection h1 with h1
      exact ⟨conversation, hfind, by simp_all, h1.symm, h2.symm⟩

theorem getMessagesByConversation_ok {s : Store} {cid : ConvId} {userId : UserId}
    {msgs : List Message} {s' : Store}
    (h : getMessagesByConversation s cid userId = (.ok msgs, s')) :
    ∃ c, findConversation s cid = some c ∧ c.participants.contains userId = true ∧
      msgs = List.insertionSort createdAsc
        (s.messages.filter (fun m => m.conversationId == cid)) ∧
      s' = { s with messages := s.messages.map (fun m =>
        if m.conversationId == cid && !(m.senderId == userId) && m.read == false then
          { m with read := true }
        else m) } := by
  simp only [getMessagesByConversation] at h
  split at h
  · simp [Prod.ext_iff] at h
  · next conversation hfind =>
    split at h
    · simp [Prod.ext_iff] at h
    · next hpart =>
      injection h with h1 h2
      injection h1 with h1
      exact ⟨conversation, hfind, by simp_all, h1.symm, h2.symm⟩

theorem createConversation_ok {s : Store} {userId : UserId} {receiverId : Option UserId}
    {itemId : Option ItemId} {initialMessage : String} {r : CreateResult} {s' : Store}
    (h : createConversation s userId receiverId itemId initialMessage = (.ok r, s')) :
    ∃ B, receiverId = some B ∧ initialMessage.isEmpty = false ∧
      s.users.contains B = true ∧
      r.message.senderId = userId ∧ r.message.readBy = [userId] ∧
      r.message.content = initialMessage ∧ r.message.createdAt = s.time ∧
      r.conversation.lastMessage = some r.message.id ∧
      r.conversation.updatedAt = s.time ∧
      r.message.conversationId = r.conversation.id ∧
      s'.users = s.users ∧ s'.messages = s.messages ++ [r.message] ∧
      s'.time = s.time + 1 ∧
      ((∃ c, s.conversations.find? (convKey userId B itemId) = some c ∧
          r.conversation = { c with lastMessage := some s.nextId, updatedAt := s.time } ∧
          r.message.id = s.nextId ∧ s'.nextId = s.nextId + 1 ∧
          s'.conversations = s.conversations.map (fun x =>
            if x.id == c.id then r.conversation else x)) ∨
        (s.conversations.find? (convKey userId B itemId) = none ∧
          r.conversation =
            { id := s.nextId, participants := [userId, B], itemId := itemId,
              lastMessage := some (s.nextId + 1), updatedAt := s.time } ∧
          r.message.id = s.nextId + 1 ∧ s'.nextId = s.nextId + 2 ∧
          s'.conversations = s.conversations ++ [r.conversation])) := by
  cases receiverId with
  | none => simp [createConversation, Prod.ext_iff] at h
  | some B =>
    simp only [createConversation] at h
    split at h
    · simp [Prod.ext_iff] at h
    · split at h
      · simp [Prod.ext_iff] at h
      · next husers =>
        split at h
        · next c hfind =>
          injection h with h1 h2
          injection h1 with h1
          refine ⟨B, rfl, by simp_all, by simp_all, ?_⟩
          rw [← h1, ← h2]
          refine ⟨rfl, rfl, rfl, rfl, rfl, rfl, rfl, rfl, rfl, rfl, ?_⟩
          exact Or.inl ⟨c, hfind, rfl, rfl, rfl, rfl⟩
        · next hfind =>
          injection h with h1 h2
          injection h1 with h1
          refine ⟨B, rfl, by simp_all, by simp_all, ?_⟩
          rw [← h1, ← h2]
          refine ⟨rfl, rfl, rfl, rfl, rfl, rfl, rfl, rfl, rfl, rfl, ?_⟩
          exact Or.inr ⟨hfind, rfl, rfl, rfl, rfl⟩

/-- Helper: `$addToSet` leaves the element present afterwards. -/
theorem addToSet_contains (l : List UserId) (u : UserId) :
    (addToSet l u).contains u = true := by
  unfold addToSet
  split
  · assumption
  · simp

/-- Helper: after the `markMessagesAsRead` update is applied to a
message, that message no longer matches `unreadQuery`. -/
theorem unreadQuery_after_mark (cid : ConvId) (userId : UserId) (m : Message) :
    unreadQuery cid userId
      (if unreadQuery cid userId m then
        { m with readBy := addToSet m.readBy userId }
      else m) = false := by
  by_cases hq : unreadQuery cid userId m = true
  · simp only [hq, if_pos]
    simp only [unreadQuery]
    simp
    intro _ _
    simpa using addToSet_contains m.readBy userId
  · simp only [Bool.not_eq_true] at hq
    simp [hq]

/-- Helper: after a successful `markMessagesAsRead`, no stored message
matches `unreadQuery` for that conversation and user. -/
theorem markRead_post_messages {s : Store} {cid : ConvId} {userId : UserId}
    {r : MarkReadResult} {s' : Store}
    (h : markMessagesAsRead s cid userId = (.ok r, s')) :
    ∀ m ∈ s'.messages, unreadQuery cid userId m = false := by
  obtain ⟨c, hfind, hc, hr, hs'⟩ := markMessagesAsRead_ok h
  subst hs'
  intro m hm
  simp only [List.mem_map] at hm
  obtain ⟨m0, hm0, rfl⟩ := hm
  exact unreadQuery_after_mark cid userId m0

/-- Helper: a successful `markMessagesAsRead` drives the unread count of
that conversation for that user to zero. -/
theorem markRead_unread_zero {s : Store} {cid : ConvId} {userId : UserId}
    {r : MarkReadResult} {s' : Store}
    (h : markMessagesAsRead s cid userId = (.ok r, s')) :
    unreadCount s' cid userId = 0 := by
  have hall := markRead_post_messages h
  have hnil : s'.messages.filter (unreadQuery cid userId) = [] :=
    List.filter_eq_nil_iff.mpr (fun m hm => by simp [hall m hm])
  simp [unreadCount, hnil]

/-- Helper: repeating a successful `markMessagesAsRead` changes nothing
and reports zero modified documents. -/
theorem markRead_idempotent {s : Store} {cid : ConvId} {userId : UserId}
    {r : MarkReadResult} {s' : Store}
    (h : markMessagesAsRead s cid userId = (.ok r, s')) :
    markMessagesAsRead s' cid userId = (.ok ⟨0⟩, s') := by
  obtain ⟨c, hfind, hc, hr, hs'⟩ := markMessagesAsRead_ok h
  have hall : ∀ m ∈ s'.messages, unreadQuery cid userId m = false :=
    markRead_post_messages h
  have hconv : findConversation s' cid = some c := by
    subst hs'; exact hfind
  have hnil : s'.messages.filter (unreadQuery cid userId) = [] :=
    List.filter_eq_nil_iff.mpr (fun m hm => by simp [hall m hm])
  have hmap : s'.messages.map (fun m =>
      if unreadQuery cid userId m then
        { m with readBy := addToSet m.readBy userId }
      else m) = s'.messages := by
    rw [List.map_congr_left (g := id) (fun m hm => by simp [hall m hm]), List.map_id]
  simp only [markMessagesAsRead, hconv, hc, Bool.not_true, Bool.false_eq_true,
    if_false, hnil, hmap, List.length_nil]

/-- C7: every message created by `createConversation` or by `sendMessage`
contains its own sender in its read-set immediately after creation (both
creation sites pass `readBy: [senderId]`). -/
theorem created_message_read_by_sender (s : Store) (A : UserId) (rB : Option UserId)
    (I : Option ItemId) (T : String) (cid : Option ConvId) (t : String) :
    (∀ r s', createConversation s A rB I T = (.ok r, s') →
      r.message.readBy.contains r.message.senderId = true) ∧
    (∀ m s', sendMessage s cid A t = (.ok m, s') →
      m.readBy.contains m.senderId = true) := by
  constructor
  · intro r s' h
    obtain ⟨B, hB, hT, hu, hsender, hreadBy, hrest⟩ := createConversation_ok h
    rw [hreadBy, hsender]
    simp
  · intro m s' h
    obtain ⟨c0, c, hc0, ht, hfind, hc, hm, hs'⟩ := sendMessage_ok h
    rw [hm]
    simp

/-- C7 witness: on a fresh store, user 1 opens a conversation with user 2
by sending "hi"; the created message has sender 1 and read-set `[1]`. -/
theorem created_message_read_by_sender_witness :
    createConversation freshStore 1 (some 2) none "hi" =
      (.ok ⟨⟨0, [1, 2], none, some 1, 0⟩, ⟨1, 0, 1, "hi", [1], false, 0⟩⟩,
        ⟨[1, 2], [⟨0, [1, 2], none, some 1, 0⟩], [⟨1, 0, 1, "hi", [1], false, 0⟩], 2, 1⟩) ∧
    (⟨1, 0, 1, "hi", [1], false, 0⟩ : Message).readBy.contains
      (⟨1, 0, 1, "hi", [1], false, 0⟩ : Message).senderId = true :=
  ⟨by decide,
   (created_message_read_by_sender freshStore 1 (some 2) none "hi" (some 0) "x").1
     ⟨⟨0, [1, 2], none, some 1, 0⟩, ⟨1, 0, 1, "hi", [1], false, 0⟩⟩
     ⟨[1, 2], [⟨0, [1, 2], none, some 1, 0⟩], [⟨1, 0, 1, "hi", [1], false, 0⟩], 2, 1⟩
     (by decide)⟩

/-- Helper: no poller step ever changes the `isFetching` value captured
by the closure the interval holds. -/
theorem pollStep_captured (st : PollerState) (e : PollEvent) :
    (pollStep st e).capturedIsFetching = st.capturedIsFetching := by
  cases e <;> simp only [pollStep] <;> split <;> rfl

/-- Helper: over any event sequence the captured `isFetching` stays at
the value it had when the interval was installed. -/
theorem pollRun_captured (es : List PollEvent) :
    ∀ st : PollerState, (es.foldl pollStep st).capturedIsFetching = st.capturedIsFetching := by
  induction es with
  | nil => intro st; rfl
  | cons e es ih =>
    intro st
    rw [List.foldl_cons, ih (pollStep st e), pollStep_captured]

/-- C9 (exhibit of the code bug): two timer fires with no response in
between leave TWO requests in flight — the single-flight guard reads the
`isFetching` binding captured by the closure installed on mount, which
(second conjunct) no step ever changes from `false`, so an overlapping
poll is started rather than dropped. -/
theorem poller_guard_overlap :
    (pollRun [.timerFire, .timerFire]).inFlight = 2 ∧
    (∀ es : List PollEvent, (pollRun es).capturedIsFetching = false) := by
  constructor
  · decide
  · intro es
    exact pollRun_captured es pollerInit

/-- C5 counterexample: user 5 calls each operation on conversation id 0,
which does not exist in `freshStore`; every call fails with status 404
(NotFound), which is not an authorization status — refuting "fails with
an authorization error regardless of the resource's existence". -/
theorem nonparticipant_missing_conversation_counterexample :
    errStatus (getConversation freshStore 0 5) = some 404 ∧
    errStatus (getMessagesByConversation freshStore 0 5).1 = some 404 ∧
    errStatus (markMessagesAsRead freshStore 0 5).1 = some 404 ∧
    errStatus (sendMessage freshStore (some 0) 5 "hello").1 = some 404 ∧
    isAuthStatus (some 404) = false := by decide

/-- C5 amended: a non-participant's call never succeeds: when the
conversation exists the failure is an authorization error (401 for
`getConversation`, `getMessagesByConversation` and `sendMessage`, 403
for `markMessagesAsRead`); when the conversation does not exist the
failure is NotFound (404). -/
theorem nonparticipant_access_always_fails (s : Store) (cid : ConvId) (U : UserId)
    (t : String) (ht : t.isEmpty = false) :
    (findConversation s cid = none →
      errStatus (getConversation s cid U) = some 404 ∧
      errStatus (getMessagesByConversation s cid U).1 = some 404 ∧
      errStatus (markMessagesAsRead s cid U).1 = some 404 ∧
      errStatus (sendMessage s (some cid) U t).1 = some 404) ∧
    (∀ c, findConversation s cid = some c → c.participants.contains U = false →
      isAuthStatus (errStatus (getConversation s cid U)) = true ∧
      isAuthStatus (errStatus (getMessagesByConversation s cid U).1) = true ∧
      isAuthStatus (errStatus (markMessagesAsRead s cid U).1) = true ∧
      isAuthStatus (errStatus (sendMessage s (some cid) U t).1) = true) := by
  constructor
  · intro hn
    simp [getConversation, getMessagesByConversation, markMessagesAsRead, sendMessage,
      errStatus, hn, ht]
  · intro c hfind hc
    have hc' : ¬(U ∈ c.participants) := by simpa using hc
    simp [getConversation, getMessagesByConversation, markMessagesAsRead, sendMessage,
      errStatus, isAuthStatus, hfind, hc', ht]

/-- C5 witness: user 5 is not a participant of conversation 0 of
`twoUserStore`; all four calls fail with an authorization status. -/
theorem nonparticipant_access_always_fails_witness :
    ("z" : String).isEmpty = false ∧
    (isAuthStatus (errStatus (getConversation twoUserStore 0 5)) = true ∧
     isAuthStatus (errStatus (getMessagesByConversation twoUserStore 0 5).1) = true ∧
     isAuthStatus (errStatus (markMessagesAsRead twoUserStore 0 5).1) = true ∧
     isAuthStatus (errStatus (sendMessage twoUserStore (some 0) 5 "z").1) = true) :=
  ⟨by decide,
   (nonparticipant_access_always_fails twoUserStore 0 5 "z" (by decide)).2
     ⟨0, [1, 2], none, some 0, 0⟩ (by decide) (by decide)⟩

/-- C1 counterexample: user 2 lists the messages of conversation 0 of
`twoUserStore`, whose single message was sent by user 1 and read only by
user 1.  Afterwards that message's read-set is still `[1]` (user 2 is
not in it — the handler only set the legacy boolean `read` flag), user
2's unread count is still 1 (not 0), and the immediately following
`markMessagesAsRead` modifies 1 document (not 0). -/
theorem listMessages_read_marking_counterexample :
    (getMessagesByConversation twoUserStore 0 2).2.messages.map (fun m => m.readBy) = [[1]] ∧
    unreadCount (getMessagesByConversation twoUserStore 0 2).2 0 2 = 1 ∧
    (markMessagesAsRead (getMessagesByConversation twoUserStore 0 2).2 0 2).1 =
      .ok ⟨1⟩ := by decide

/-- C1 amended: `getMessagesByConversation` leaves every message's
read-set (and hence every unread count) unchanged — its side effect only
sets the legacy boolean `read` flag; it is the explicit
`markMessagesAsRead` call issued afterwards that puts the viewer into
the read-sets, after which the viewer's unread count for the
conversation is 0 and a further `markMessagesAsRead` changes nothing and
reports zero. -/
theorem listMessages_then_markRead (s : Store) (cid : ConvId) (U : UserId)
    (msgs : List Message) (s₁ : Store)
    (h : getMessagesByConversation s cid U = (.ok msgs, s₁)) :
    s₁.messages.map (fun m => m.readBy) = s.messages.map (fun m => m.readBy) ∧
    unreadCount s₁ cid U = unreadCount s cid U ∧
    ∀ r s₂, markMessagesAsRead s₁ cid U = (.ok r, s₂) →
      unreadCount s₂ cid U = 0 ∧ markMessagesAsRead s₂ cid U = (.ok ⟨0⟩, s₂) := by
  obtain ⟨c, hfind, hc, hmsgs, hs₁⟩ := getMessagesByConversation_ok h
  refine ⟨?_, ?_, ?_⟩
  · subst hs₁
    show (s.messages.map _).map _ = _
    rw [List.map_map]
    exact List.map_congr_left (fun m _ => by dsimp; split <;> rfl)
  · subst hs₁
    show ((s.messages.map _).filter _).length = _
    rw [List.filter_map]
    rw [List.filter_congr (q := unreadQuery cid U) (fun m _ => by
      show unreadQuery cid U _ = unreadQuery cid U m
      dsimp only
      split <;> rfl)]
    rw [List.length_map]
    rfl
  · intro r s₂ hmark
    exact ⟨markRead_unread_zero hmark, markRead_idempotent hmark⟩

/-- C1 amended witness: concrete run of the amended statement on
`twoUserStore` with viewer 2. -/
theorem listMessages_then_markRead_witness :
    (⟨[1, 2], [⟨0, [1, 2], none, some 0, 0⟩], [⟨0, 0, 1, "hi", [1], true, 0⟩], 1, 1⟩
        : Store).messages.map (fun m => m.readBy) =
      twoUserStore.messages.map (fun m => m.readBy) ∧
    unreadCount
      (⟨[1, 2], [⟨0, [1, 2], none, some 0, 0⟩], [⟨0, 0, 1, "hi", [1, 2], true, 0⟩], 1, 1⟩
        : Store) 0 2 = 0 ∧
    markMessagesAsRead
      (⟨[1, 2], [⟨0, [1, 2], none, some 0, 0⟩], [⟨0, 0, 1, "hi", [1, 2], true, 0⟩], 1, 1⟩
        : Store) 0 2 =
      (.ok ⟨0⟩,
        ⟨[1, 2], [⟨0, [1, 2], none, some 0, 0⟩], [⟨0, 0, 1, "hi", [1, 2], true, 0⟩], 1, 1⟩) :=
  ⟨(listMessages_then_markRead twoUserStore 0 2
      [⟨0, 0, 1, "hi", [1], false, 0⟩]
      ⟨[1, 2], [⟨0, [1, 2], none, some 0, 0⟩], [⟨0, 0, 1, "hi", [1], true, 0⟩], 1, 1⟩
      (by decide)).1,
   ((listMessages_then_markRead twoUserStore 0 2
      [⟨0, 0, 1, "hi", [1], false, 0⟩]
      ⟨[1, 2], [⟨0, [1, 2], none, some 0, 0⟩], [⟨0, 0, 1, "hi", [1], true, 0⟩], 1, 1⟩
      (by decide)).2.2 ⟨1⟩
      ⟨[1, 2], [⟨0, [1, 2], none, some 0, 0⟩], [⟨0, 0, 1, "hi", [1, 2], true, 0⟩], 1, 1⟩
      (by decide)).1,
   ((listMessages_then_markRead twoUserStore 0 2
      [⟨0, 0, 1, "hi", [1], false, 0⟩]
      ⟨[1, 2], [⟨0, [1, 2], none, some 0, 0⟩], [⟨0, 0, 1, "hi", [1], true, 0⟩], 1, 1⟩
      (by decide)).2.2 ⟨1⟩
      ⟨[1, 2], [⟨0, [1, 2], none, some 0, 0⟩], [⟨0, 0, 1, "hi", [1, 2], true, 0⟩], 1, 1⟩
      (by decide)).2⟩

/-- C2: the unread count reported by `getConversations` for each listed
conversation is the number of stored messages of that conversation whose
sender is not the viewer and whose read-set does not contain the viewer;
a successful `sendMessage` by another user into conversation `cid`
increases the viewer's unread count for `cid` by exactly one; a
successful `markMessagesAsRead` resets it to zero. -/
theorem unread_count_spec (s : Store) (U : UserId) :
    (∀ p ∈ getConversations s U, p.2 =
      (s.messages.filter (fun m => m.conversationId == p.1.id && !(m.senderId == U)
        && !(m.readBy.contains U))).length) ∧
    (∀ cid B t m s', ¬B = U → sendMessage s (some cid) B t = (.ok m, s') →
      unreadCount s' cid U = unreadCount s cid U + 1) ∧
    (∀ cid r s', markMessagesAsRead s cid U = (.ok r, s') →
      unreadCount s' cid U = 0) := by
  refine ⟨?_, ?_, ?_⟩
  · intro p hp
    simp only [getConversations, List.mem_map] at hp
    obtain ⟨c, hc, rfl⟩ := hp
    rfl
  · intro cid B t m s' hBU h
    obtain ⟨c0, c, hc0, ht, hfind, hcp, hm, hs'⟩ := sendMessage_ok h
    obtain rfl : cid = c0 := by injection hc0
    subst hs'
    show ((s.messages ++ [m]).filter (unreadQuery cid U)).length = _
    rw [List.filter_append]
    have hq : unreadQuery cid U m = true := by
      subst hm
      simp [unreadQuery, hBU]
      exact fun hh => hBU hh.symm
    simp [hq, unreadCount]
  · intro cid r s' h
    exact markRead_unread_zero h

/-- C2 witness: in `twoUserStore` user 2 has one unread message in
conversation 0; user 1 sending "yo" raises it to two; marking read
drops it to zero. -/
theorem unread_count_spec_witness :
    unreadCount
      (⟨[1, 2], [⟨0, [1, 2], none, some 1, 1⟩],
        [⟨0, 0, 1, "hi", [1], false, 0⟩, ⟨1, 0, 1, "yo", [1], false, 1⟩], 2, 2⟩ : Store)
      0 2 = unreadCount twoUserStore 0 2 + 1 ∧
    unreadCount
      (⟨[1, 2], [⟨0, [1, 2], none, some 0, 0⟩], [⟨0, 0, 1, "hi", [1, 2], false, 0⟩], 1, 1⟩
        : Store) 0 2 = 0 :=
  ⟨(unread_count_spec twoUserStore 2).2.1 0 1 "yo"
      ⟨1, 0, 1, "yo", [1], false, 1⟩
      ⟨[1, 2], [⟨0, [1, 2], none, some 1, 1⟩],
        [⟨0, 0, 1, "hi", [1], false, 0⟩, ⟨1, 0, 1, "yo", [1], false, 1⟩], 2, 2⟩
      (by decide) (by decide),
   (unread_count_spec twoUserStore 2).2.2 0 ⟨1⟩
      ⟨[1, 2], [⟨0, [1, 2], none, some 0, 0⟩], [⟨0, 0, 1, "hi", [1, 2], false, 0⟩], 1, 1⟩
      (by decide)⟩

/-- C3: a successful `markMessagesAsRead` rewrites the message collection
by appending the user to the read-set of exactly the messages of the
conversation authored by someone else whose read-set does not yet
contain the user, leaving every other message untouched; its reported
count is the number of such messages; and re-invoking it immediately
changes nothing and reports zero. -/
theorem markRead_exact_idempotent (s : Store) (cid : ConvId) (U : UserId)
    (r : MarkReadResult) (s' : Store)
    (h : markMessagesAsRead s cid U = (.ok r, s')) :
    s'.messages = s.messages.map (fun m =>
      if m.conversationId == cid && !(m.senderId == U) && !(m.readBy.contains U) then
        { m with readBy := m.readBy ++ [U] }
      else m) ∧
    r.modifiedCount = (s.messages.filter (fun m =>
      m.conversationId == cid && !(m.senderId == U) && !(m.readBy.contains U))).length ∧
    markMessagesAsRead s' cid U = (.ok ⟨0⟩, s') := by
  obtain ⟨c, hfind, hcp, hr, hs'⟩ := markMessagesAsRead_ok h
  refine ⟨?_, ?_, markRead_idempotent h⟩
  · subst hs'
    show s.messages.map _ = s.messages.map _
    refine List.map_congr_left (fun m hm => ?_)
    show (if unreadQuery cid U m then { m with readBy := addToSet m.readBy U } else m) =
      (if unreadQuery cid U m then { m with readBy := m.readBy ++ [U] } else m)
    by_cases hq : unreadQuery cid U m = true
    · rw [if_pos hq, if_pos hq]
      have hnc : m.readBy.contains U = false := by
        unfold unreadQuery at hq
        simp only [Bool.and_eq_true, Bool.not_eq_true'] at hq
        exact hq.2
      simp only [addToSet, hnc, Bool.false_eq_true, if_false]
    · rw [if_neg hq, if_neg hq]
  · subst hr
    rfl

/-- C3 witness: in `twoUserStore`, user 2 marking conversation 0 as read
modifies exactly the one message from user 1, appending 2 to its
read-set; repeating the call is the identity reporting zero. -/
theorem markRead_exact_idempotent_witness :
    (⟨[1, 2], [⟨0, [1, 2], none, some 0, 0⟩], [⟨0, 0, 1, "hi", [1, 2], false, 0⟩], 1, 1⟩
        : Store).messages = twoUserStore.messages.map (fun m =>
      if m.conversationId == 0 && !(m.senderId == 2) && !(m.readBy.contains 2) then
        { m with readBy := m.readBy ++ [2] }
      else m) ∧
    (⟨1⟩ : MarkReadResult).modifiedCount = (twoUserStore.messages.filter (fun m =>
      m.conversationId == 0 && !(m.senderId == 2) && !(m.readBy.contains 2))).length ∧
    markMessagesAsRead
      (⟨[1, 2], [⟨0, [1, 2], none, some 0, 0⟩], [⟨0, 0, 1, "hi", [1, 2], false, 0⟩], 1, 1⟩
        : Store) 0 2 =
      (.ok ⟨0⟩,
        ⟨[1, 2], [⟨0, [1, 2], none, some 0, 0⟩], [⟨0, 0, 1, "hi", [1, 2], false, 0⟩], 1, 1⟩) :=
  markRead_exact_idempotent twoUserStore 0 2 ⟨1⟩
    ⟨[1, 2], [⟨0, [1, 2], none, some 0, 0⟩], [⟨0, 0, 1, "hi", [1, 2], false, 0⟩], 1, 1⟩
    (by decide)

/-- Helper: replacing (by id) the conversation that `find?` locates with
a document `v` that itself satisfies the search predicate makes `find?`
return `v` on the rewritten collection. -/
theorem find?_map_ite (l : List Conversation) (p : Conversation → Bool) (key : ConvId)
    (c v : Conversation) (hf : l.find? p = some c) (hkey : (c.id == key) = true)
    (hv : p v = true) :
    (l.map (fun x => if x.id == key then v else x)).find? p = some v := by
  induction l with
  | nil => simp at hf
  | cons hd tl ih =>
    by_cases hid : (hd.id == key) = true
    · simp only [List.map_cons, hid, if_pos, List.find?_cons_of_pos _ hv]
    · rw [List.map_cons, if_neg (by simp_all)]
      cases hp : p hd with
      | true =>
        rw [List.find?_cons_of_pos _ hp] at hf
        obtain rfl : hd = c := by injection hf
        exact absurd hkey hid
      | false =>
        rw [List.find?_cons_of_neg _ (by simp [hp])] at hf
        rw [List.find?_cons_of_neg _ (by simp [hp])]
        exact ih hf

/-- C6: `sendMessage` fails with 400 on empty text (store untouched),
404 when the conversation is absent (store untouched), 401 when the
sender is not a participant (store untouched); on success it appends
exactly one message whose read-set is `[sender]` and repoints the
conversation's `lastMessage` at it, refreshing `updatedAt`. -/
theorem sendMessage_spec (s : Store) (cid : ConvId) (B : UserId) (t : String) :
    (t.isEmpty = true →
      sendMessage s (some cid) B t =
        (.error ⟨"Please provide conversation ID and message content", 400⟩, s)) ∧
    (t.isEmpty = false → findConversation s cid = none →
      errStatus (sendMessage s (some cid) B t).1 = some 404 ∧
      (sendMessage s (some cid) B t).2 = s) ∧
    (∀ c, t.isEmpty = false → findConversation s cid = some c →
      c.participants.contains B = false →
      errStatus (sendMessage s (some cid) B t).1 = some 401 ∧
      (sendMessage s (some cid) B t).2 = s) ∧
    (∀ c, t.isEmpty = false → findConversation s cid = some c →
      c.participants.contains B = true →
      ∃ m s', sendMessage s (some cid) B t = (.ok m, s') ∧
        m.readBy = [B] ∧ m.senderId = B ∧ m.content = t ∧ m.conversationId = cid ∧
        s'.messages = s.messages ++ [m] ∧
        ∃ c', findConversation s' cid = some c' ∧
          c'.lastMessage = some m.id ∧ c'.updatedAt = s.time) := by
  refine ⟨?_, ?_, ?_, ?_⟩
  · intro ht
    simp [sendMessage, ht]
  · intro ht hn
    simp [sendMessage, errStatus, ht, hn]
  · intro c ht hfind hc
    have hc' : ¬(B ∈ c.participants) := by simpa using hc
    simp [sendMessage, errStatus, ht, hfind, hc']
  · intro c ht hfind hcp
    have heq : sendMessage s (some cid) B t =
        (.ok ⟨s.nextId, cid, B, t, [B], false, s.time⟩,
          { s with
            conversations := s.conversations.map (fun x =>
              if x.id == cid then
                { c with lastMessage := some s.nextId, updatedAt := s.time }
              else x),
            messages := s.messages ++ [⟨s.nextId, cid, B, t, [B], false, s.time⟩],
            nextId := s.nextId + 1,
            time := s.time + 1 }) := by
      have hcp' : B ∈ c.participants := by simpa using hcp
      simp [sendMessage, ht, hfind, hcp']
    refine ⟨⟨s.nextId, cid, B, t, [B], false, s.time⟩, _, heq, rfl, rfl, rfl, rfl, rfl, ?_⟩
    refine ⟨{ c with lastMessage := some s.nextId, updatedAt := s.time }, ?_, rfl, rfl⟩
    have hfind' : s.conversations.find? (fun x => x.id == cid) = some c := hfind
    have hcid := List.find?_some hfind'
    exact find?_map_ite s.conversations _ cid c _ hfind' hcid hcid

/-- C6 witness: concrete runs of all four branches on `twoUserStore`
(empty text, unknown conversation id 7, non-participant 5, and a
successful send by participant 2). -/
theorem sendMessage_spec_witness :
    (sendMessage twoUserStore (some 0) 2 "" =
      (.error ⟨"Please provide conversation ID and message content", 400⟩, twoUserStore)) ∧
    (errStatus (sendMessage twoUserStore (some 7) 2 "yo").1 = some 404 ∧
      (sendMessage twoUserStore (some 7) 2 "yo").2 = twoUserStore) ∧
    (errStatus (sendMessage twoUserStore (some 0) 5 "yo").1 = some 401 ∧
      (sendMessage twoUserStore (some 0) 5 "yo").2 = twoUserStore) ∧
    (∃ m s', sendMessage twoUserStore (some 0) 2 "yo" = (.ok m, s') ∧
      m.readBy = [2] ∧ m.senderId = 2 ∧ m.content = "yo" ∧ m.conversationId = 0 ∧
      s'.messages = twoUserStore.messages ++ [m] ∧
      ∃ c', findConversation s' 0 = some c' ∧
        c'.lastMessage = some m.id ∧ c'.updatedAt = twoUserStore.time) :=
  ⟨(sendMessage_spec twoUserStore 0 2 "").1 (by decide),
   (sendMessage_spec twoUserStore 7 2 "yo").2.1 (by decide) (by decide),
   (sendMessage_spec twoUserStore 0 5 "yo").2.2.1 ⟨0, [1, 2], none, some 0, 0⟩
     (by decide) (by decide) (by decide),
   (sendMessage_spec twoUserStore 0 2 "yo").2.2.2 ⟨0, [1, 2], none, some 0, 0⟩
     (by decide) (by decide) (by decide)⟩

/-- C8: `getConversations` returns exactly (a permutation of) the stored
conversations in which the user participates, sorted by `updatedAt`
descending, and a successful `getMessagesByConversation` returns exactly
(a permutation of) the conversation's stored messages, sorted by
`createdAt` ascending. -/
theorem conversations_and_messages_ordered (s : Store) (U : UserId)
    (cid : ConvId) (msgs : List Message) (s' : Store)
    (h : getMessagesByConversation s cid U = (.ok msgs, s')) :
    ((getConversations s U).map Prod.fst).Perm
      (s.conversations.filter (fun c => c.participants.contains U)) ∧
    List.Sorted updatedDesc ((getConversations s U).map Prod.fst) ∧
    msgs.Perm (s.messages.filter (fun m => m.conversationId == cid)) ∧
    List.Sorted createdAsc msgs := by
  obtain ⟨c, hfind, hcp, hmsgs, hs'⟩ := getMessagesByConversation_ok h
  have key : (getConversations s U).map Prod.fst =
      List.insertionSort updatedDesc
        (s.conversations.filter (fun c => c.participants.contains U)) := by
    simp only [getConversations]
    rw [List.map_map]
    exact (List.map_congr_left (fun a _ => rfl)).trans (List.map_id _)
  subst hmsgs
  refine ⟨?_, ?_, ?_, ?_⟩
  · rw [key]
    exact List.perm_insertionSort _ _
  · rw [key]
    exact List.sorted_insertionSort _ _
  · exact List.perm_insertionSort _ _
  · exact List.sorted_insertionSort _ _

/-- C8 witness: concrete run on `twoUserStore` for viewer 2 and
conversation 0. -/
theorem conversations_and_messages_ordered_witness :
    ((getConversations twoUserStore 2).map Prod.fst).Perm
      (twoUserStore.conversations.filter (fun c => c.participants.contains 2)) ∧
    List.Sorted updatedDesc ((getConversations twoUserStore 2).map Prod.fst) ∧
    ([⟨0, 0, 1, "hi", [1], false, 0⟩] : List Message).Perm
      (twoUserStore.messages.filter (fun m => m.conversationId == 0)) ∧
    List.Sorted createdAsc [⟨0, 0, 1, "hi", [1], false, 0⟩] :=
  conversations_and_messages_ordered twoUserStore 2 0
    [⟨0, 0, 1, "hi", [1], false, 0⟩]
    ⟨[1, 2], [⟨0, [1, 2], none, some 0, 0⟩], [⟨0, 0, 1, "hi", [1], true, 0⟩], 1, 1⟩
    (by decide)

/-- Helper: appending messages cannot break a valid last-message
pointer. -/
theorem convPointerOk_append (msgs extra : List Message) (c : Conversation)
    (h : convPointerOk msgs c = true) : convPointerOk (msgs ++ extra) c = true := by
  cases hlm : c.lastMessage with
  | none => simp [convPointerOk, hlm]
  | some mid =>
    simp only [convPointerOk, hlm, List.any_eq_true] at h ⊢
    obtain ⟨m, hm, hp⟩ := h
    exact ⟨m, List.mem_append_left _ hm, hp⟩

/-- Helper: rewriting every message by an id- and owner-preserving
transformation cannot break a valid last-message pointer. -/
theorem convPointerOk_map (msgs : List Message) (f : Message → Message)
    (hf : ∀ m, (f m).id = m.id ∧ (f m).conversationId = m.conversationId)
    (c : Conversation) (h : convPointerOk msgs c = true) :
    convPointerOk (msgs.map f) c = true := by
  cases hlm : c.lastMessage with
  | none => simp [convPointerOk, hlm]
  | some mid =>
    simp only [convPointerOk, hlm, List.any_eq_true] at h ⊢
    obtain ⟨m, hm, hp⟩ := h
    exact ⟨f m, List.mem_map_of_mem f hm, by rw [(hf m).1, (hf m).2]; exact hp⟩

/-- Helper: a conversation whose pointer names a stored message of its
own id passes the pointer check. -/
theorem convPointerOk_of_witness (msgs : List Message) (c : Conversation) (m : Message)
    (hm : m ∈ msgs) (hlm : c.lastMessage = some m.id) (hcid : m.conversationId = c.id) :
    convPointerOk msgs c = true := by
  simp only [convPointerOk, hlm, List.any_eq_true]
  exact ⟨m, hm, by simp [hcid]⟩

/-- C10: after a successful `createConversation` or `sendMessage` the
affected conversation's `lastMessage` references exactly the message
just created and that message's `conversationId` is the conversation's
id; consequently every operation of the controller preserves the
referential-integrity check `convInvB` (conversations with a set
last-message pointer always point into their own message list). -/
theorem lastMessage_integrity (s : Store) (A : UserId) (rB : Option UserId)
    (I : Option ItemId) (T : String) (cid : Option ConvId) (U : UserId) (t : String)
    (c0 : ConvId) (V W : UserId) :
    (∀ r s', createConversation s A rB I T = (.ok r, s') →
      r.conversation.lastMessage = some r.message.id ∧
      r.message.conversationId = r.conversation.id ∧
      r.conversation ∈ s'.conversations ∧ r.message ∈ s'.messages ∧
      (convInvB s = true → convInvB s' = true)) ∧
    (∀ m s', sendMessage s cid U t = (.ok m, s') →
      (∃ c', c' ∈ s'.conversations ∧ c'.lastMessage = some m.id ∧
        c'.id = m.conversationId ∧ c'.updatedAt = s.time) ∧
      m ∈ s'.messages ∧
      (convInvB s = true → convInvB s' = true)) ∧
    (∀ r s', markMessagesAsRead s c0 V = (.ok r, s') →
      convInvB s = true → convInvB s' = true) ∧
    (∀ msgs s', getMessagesByConversation s c0 W = (.ok msgs, s') →
      convInvB s = true → convInvB s' = true) := by
  refine ⟨?_, ?_, ?_, ?_⟩
  · intro r s' h
    obtain ⟨B, hB, hT, hu, hsend, hreadBy, hcont, hcreat, hlm, hupd, hmid,
      husers, hmsgs, htime, hbranch⟩ := createConversation_ok h
    refine ⟨hlm, hmid, ?_, ?_, ?_⟩
    · rcases hbranch with ⟨c, hfind, hconv, hmidid, hnid, hconvs⟩ |
        ⟨hfind, hconv, hmidid, hnid, hconvs⟩
      · rw [hconvs]
        have hcmem : c ∈ s.conversations := List.mem_of_find?_eq_some hfind
        exact List.mem_map.mpr ⟨c, hcmem, by simp⟩
      · rw [hconvs]
        exact List.mem_append_right _ (List.mem_singleton.mpr rfl)
    · rw [hmsgs]
      exact List.mem_append_right _ (List.mem_singleton.mpr rfl)
    · intro hinv
      have hmem : r.message ∈ s'.messages := by
        rw [hmsgs]
        exact List.mem_append_right _ (List.mem_singleton.mpr rfl)
      simp only [convInvB, List.all_eq_true] at hinv ⊢
      rcases hbranch with ⟨c, hfind, hconv, hmidid, hnid, hconvs⟩ |
        ⟨hfind, hconv, hmidid, hnid, hconvs⟩ <;> rw [hconvs] <;> intro x hx
      · simp only [List.mem_map] at hx
        obtain ⟨y, hy, rfl⟩ := hx
        by_cases hid : (y.id == c.id) = true
        · rw [if_pos hid]
          exact convPointerOk_of_witness _ _ _ hmem hlm hmid
        · rw [if_neg hid]
          rw [hmsgs]
          exact convPointerOk_append _ _ _ (hinv y hy)
      · rcases List.mem_append.mp hx with hy | hy
        · rw [hmsgs]
          exact convPointerOk_append _ _ _ (hinv x hy)
        · obtain rfl := List.mem_singleton.mp hy
          exact convPointerOk_of_witness _ _ _ hmem hlm hmid
  · intro m s' h
    obtain ⟨cc0, c, hcc0, ht, hfind, hcp, hm, hs'⟩ := sendMessage_ok h
    have hfind' : s.conversations.find? (fun x => x.id == cc0) = some c := hfind
    have hcid : c.id = cc0 := by simpa using List.find?_some hfind'
    have hcmem : c ∈ s.conversations := List.mem_of_find?_eq_some hfind'
    have hmmem : m ∈ s'.messages := by
      rw [hs']
      exact List.mem_append_right _ (List.mem_singleton.mpr rfl)
    refine ⟨⟨{ c with lastMessage := some m.id, updatedAt := s.time }, ?_, rfl, ?_, rfl⟩,
      hmmem, ?_⟩
    · rw [hs']
      exact List.mem_map.mpr ⟨c, hcmem, by simp [hcid]⟩
    · show c.id = m.conversationId
      rw [hm, hcid]
    · intro hinv
      rw [hs']
      simp only [convInvB, List.all_eq_true] at hinv ⊢
      intro x hx
      simp only [List.mem_map] at hx
      obtain ⟨y, hy, rfl⟩ := hx
      by_cases hid : (y.id == cc0) = true
      · rw [if_pos hid]
        refine convPointerOk_of_witness _ _ m ?_ rfl ?_
        · exact List.mem_append_right _ (List.mem_singleton.mpr rfl)
        · show m.conversationId = c.id
          rw [hm, hcid]
      · rw [if_neg hid]
        exact convPointerOk_append _ _ _ (hinv y hy)
  · intro r s' h hinv
    obtain ⟨c, hfind, hcp, hr, hs'⟩ := markMessagesAsRead_ok h
    rw [hs']
    simp only [convInvB, List.all_eq_true] at hinv ⊢
    intro x hx
    refine convPointerOk_map _ _ (fun m => ?_) x (hinv x hx)
    constructor <;> (dsimp only; split <;> rfl)
  · intro msgs s' h hinv
    obtain ⟨c, hfind, hcp, hmsgs, hs'⟩ := getMessagesByConversation_ok h
    rw [hs']
    simp only [convInvB, List.all_eq_true] at hinv ⊢
    intro x hx
    refine convPointerOk_map _ _ (fun m => ?_) x (hinv x hx)
    constructor <;> (dsimp only; split <;> rfl)

/-- C10 witness: user 2 sends "yo" into conversation 0 of
`twoUserStore`; the stored conversation now points at the new message
(id 1), which belongs to conversation 0, and the integrity check still
passes on the post-state. -/
theorem lastMessage_integrity_witness :
    convInvB twoUserStore = true ∧
    (∃ c', c' ∈ (⟨[1, 2], [⟨0, [1, 2], none, some 1, 1⟩],
        [⟨0, 0, 1, "hi", [1], false, 0⟩, ⟨1, 0, 2, "yo", [2], false, 1⟩], 2, 2⟩
          : Store).conversations ∧
      c'.lastMessage = some (⟨1, 0, 2, "yo", [2], false, 1⟩ : Message).id ∧
      c'.id = (⟨1, 0, 2, "yo", [2], false, 1⟩ : Message).conversationId ∧
      c'.updatedAt = twoUserStore.time) ∧
    convInvB (⟨[1, 2], [⟨0, [1, 2], none, some 1, 1⟩],
      [⟨0, 0, 1, "hi", [1], false, 0⟩, ⟨1, 0, 2, "yo", [2], false, 1⟩], 2, 2⟩ : Store) = true :=
  ⟨by decide,
   ((lastMessage_integrity twoUserStore 1 (some 2) none "hi" (some 0) 2 "yo" 0 2 2).2.1
      ⟨1, 0, 2, "yo", [2], false, 1⟩
      ⟨[1, 2], [⟨0, [1, 2], none, some 1, 1⟩],
        [⟨0, 0, 1, "hi", [1], false, 0⟩, ⟨1, 0, 2, "yo", [2], false, 1⟩], 2, 2⟩
      (by decide)).1,
   ((lastMessage_integrity twoUserStore 1 (some 2) none "hi" (some 0) 2 "yo" 0 2 2).2.1
      ⟨1, 0, 2, "yo", [2], false, 1⟩
      ⟨[1, 2], [⟨0, [1, 2], none, some 1, 1⟩],
        [⟨0, 0, 1, "hi", [1], false, 0⟩, ⟨1, 0, 2, "yo", [2], false, 1⟩], 2, 2⟩
      (by decide)).2.2 (by decide)⟩

/-- C4: calling `createConversation` twice with identical arguments makes
the second call reuse the conversation returned by the first: the second
result has the same conversation id, the conversation collection does
not grow, the second message is appended to that same conversation, and
— when no conversation matched the key before and the id counter is
fresh — exactly one stored conversation matches the unordered-pair/item
key afterwards. -/
theorem createConversation_single_key (s : Store) (A B : UserId) (I : Option ItemId)
    (T : String) (r₁ r₂ : CreateResult) (s₁ s₂ : Store)
    (h₁ : createConversation s A (some B) I T = (.ok r₁, s₁))
    (h₂ : createConversation s₁ A (some B) I T = (.ok r₂, s₂)) :
    r₂.conversation.id = r₁.conversation.id ∧
    s₂.conversations.length = s₁.conversations.length ∧
    r₂.message.conversationId = r₁.conversation.id ∧
    s₂.messages = s₁.messages ++ [r₂.message] ∧
    ((∀ c ∈ s.conversations, convKey A B I c = false) →
      (∀ c ∈ s.conversations, ¬c.id = s.nextId) →
      s₂.conversations.countP (convKey A B I) = 1) := by
  obtain ⟨B₁, hB₁, hT₁, hu₁, hsend₁, hreadBy₁, hcont₁, hcreat₁, hlm₁, hupd₁, hmid₁,
    husers₁, hmsgs₁, htime₁, hbranch₁⟩ := createConversation_ok h₁
  obtain rfl : B = B₁ := by injection hB₁
  have hfind₁ : s₁.conversations.find? (convKey A B I) = some r₁.conversation := by
    rcases hbranch₁ with ⟨c, hfind, hconv, hmidid, hnid, hconvs⟩ |
      ⟨hfind, hconv, hmidid, hnid, hconvs⟩
    · rw [hconvs]
      refine find?_map_ite _ _ c.id c _ hfind (by simp) ?_
      rw [hconv]
      have hck : convKey A B I c = true := List.find?_some hfind
      exact hck
    · rw [hconvs, List.find?_append, hfind]
      simp only [Option.none_or]
      rw [List.find?_cons_of_pos]
      rw [hconv]
      simp [convKey]
  obtain ⟨B₂, hB₂, hT₂, hu₂, hsend₂, hreadBy₂, hcont₂, hcreat₂, hlm₂, hupd₂, hmid₂,
    husers₂, hmsgs₂, htime₂, hbranch₂⟩ := createConversation_ok h₂
  obtain rfl : B = B₂ := by injection hB₂
  rcases hbranch₂ with ⟨c₂, hfind₂, hconv₂, hmidid₂, hnid₂, hconvs₂⟩ |
    ⟨hfind₂, hconv₂, hmidid₂, hnid₂, hconvs₂⟩
  case _ =>
    rw [hfind₁] at hfind₂
    obtain rfl : c₂ = r₁.conversation := by injection hfind₂ with hh; exact hh.symm
    refine ⟨by rw [hconv₂], by rw [hconvs₂, List.length_map], by rw [hmid₂, hconv₂],
      hmsgs₂, ?_⟩
    intro hkey hfresh
    rcases hbranch₁ with ⟨c, hfind, hconv, hmidid, hnid, hconvs⟩ |
      ⟨hfind, hconv, hmidid, hnid, hconvs⟩
    · exact absurd (List.find?_some hfind)
        (by simp [hkey c (List.mem_of_find?_eq_some hfind)])
    · have hr₁id : r₁.conversation.id = s.nextId := by rw [hconv]
      have hkey₂ : convKey A B I r₂.conversation = true := by
        rw [hconv₂, hconv]
        simp [convKey]
      rw [hconvs₂, hconvs, List.map_append, List.countP_append]
      have hmap₁ : s.conversations.map
          (fun x => if x.id == r₁.conversation.id then r₂.conversation else x) =
          s.conversations := by
        refine (List.map_congr_left ?_).trans (List.map_id _)
        intro x hx
        rw [if_neg (by simp [hr₁id, hfresh x hx])]
        rfl
      rw [hmap₁]
      have hcount₀ : s.conversations.countP (convKey A B I) = 0 :=
        List.countP_eq_zero.mpr (fun c hc => by simp [hkey c hc])
      rw [hcount₀]
      simp [List.countP_cons, hkey₂]
  case _ =>
    rw [hfind₁] at hfind₂
    cases hfind₂

/-- C4 witness: user 1 opens a conversation with user 2 about no item
twice with the text "hi" starting from `freshStore`; the second call
reuses conversation 0, appends message 2 to it, and exactly one stored
conversation matches the key afterwards. -/
theorem createConversation_single_key_witness :
    (⟨⟨0, [1, 2], none, some 2, 1⟩, ⟨2, 0, 1, "hi", [1], false, 1⟩⟩
        : CreateResult).conversation.id =
      (⟨⟨0, [1, 2], none, some 1, 0⟩, ⟨1, 0, 1, "hi", [1], false, 0⟩⟩
        : CreateResult).conversation.id ∧
    (⟨[1, 2], [⟨0, [1, 2], none, some 2, 1⟩],
      [⟨1, 0, 1, "hi", [1], false, 0⟩, ⟨2, 0, 1, "hi", [1], false, 1⟩], 3, 2⟩
        : Store).conversations.length =
      (⟨[1, 2], [⟨0, [1, 2], none, some 1, 0⟩], [⟨1, 0, 1, "hi", [1], false, 0⟩], 2, 1⟩
        : Store).conversations.length ∧
    (⟨⟨0, [1, 2], none, some 2, 1⟩, ⟨2, 0, 1, "hi", [1], false, 1⟩⟩
        : CreateResult).message.conversationId =
      (⟨⟨0, [1, 2], none, some 1, 0⟩, ⟨1, 0, 1, "hi", [1], false, 0⟩⟩
        : CreateResult).conversation.id ∧
    (⟨[1, 2], [⟨0, [1, 2], none, some 2, 1⟩],
      [⟨1, 0, 1, "hi", [1], false, 0⟩, ⟨2, 0, 1, "hi", [1], false, 1⟩], 3, 2⟩
        : Store).messages =
      (⟨[1, 2], [⟨0, [1, 2], none, some 1, 0⟩], [⟨1, 0, 1, "hi", [1], false, 0⟩], 2, 1⟩
        : Store).messages ++
        [(⟨⟨0, [1, 2], none, some 2, 1⟩, ⟨2, 0, 1, "hi", [1], false, 1⟩⟩
          : CreateResult).message] ∧
    (⟨[1, 2], [⟨0, [1, 2], none, some 2, 1⟩],
      [⟨1, 0, 1, "hi", [1], false, 0⟩, ⟨2, 0, 1, "hi", [1], false, 1⟩], 3, 2⟩
        : Store).conversations.countP (convKey 1 2 none) = 1 := by
  have h := createConversation_single_key freshStore 1 2 none "hi"
    ⟨⟨0, [1, 2], none, some 1, 0⟩, ⟨1, 0, 1, "hi", [1], false, 0⟩⟩
    ⟨⟨0, [1, 2], none, some 2, 1⟩, ⟨2, 0, 1, "hi", [1], false, 1⟩⟩
    ⟨[1, 2], [⟨0, [1, 2], none, some 1, 0⟩], [⟨1, 0, 1, "hi", [1], false, 0⟩], 2, 1⟩
    ⟨[1, 2], [⟨0, [1, 2], none, some 2, 1⟩],
      [⟨1, 0, 1, "hi", [1], false, 0⟩, ⟨2, 0, 1, "hi", [1], false, 1⟩], 3, 2⟩
    (by decide) (by decide)
  exact ⟨h.1, h.2.1, h.2.2.1, h.2.2.2.1, h.2.2.2.2 (by decide) (by decide)⟩
